import Mathlib

/-!
Verification of the DNS message codec of netscout (src/netscout-core/src/dns.rs).

Byte buffers are modelled as `List Nat` (each entry one octet).  Display
strings produced by the decoders are also modelled at the byte level
(`List Nat`); the helper `str` turns an ASCII Lean string literal into its
byte list for readable statements.  Rust's `String::from_utf8_lossy(..).to_string()`
is modelled as the identity on the byte slice (exact for valid UTF-8 input;
label bytes are never inspected by any property proved here).

Rust computations that can panic (out-of-bounds slice indexing) or, in the
source, fail to terminate (unbounded compression-pointer chasing in
`parse_name`) are modelled with the result type `PRes`: `.panic` is an
out-of-bounds index panic, `.fuelOut` means the supplied recursion fuel ran
out (a run that returns `.fuelOut` for every fuel is a non-terminating run
of the Rust source), and `.ok` is a normal return.
-/

/-- Result of a Rust computation: normal return, index-out-of-bounds panic,
or recursion fuel exhausted (the Rust loop would still be running). -/
inductive PRes (α : Type) where
  | panic : PRes α
  | fuelOut : PRes α
  | ok : α → PRes α
deriving DecidableEq, Repr

/-- Bytes of an ASCII string literal, for readable statements. -/
def str (s : String) : List Nat :=
  s.data.map Char.toNat

/-- Decimal rendering of a natural number, as bytes (Rust `format!("{n}")`). -/
def decimal (n : Nat) : List Nat :=
  (Nat.toDigits 10 n).map Char.toNat

/-- Lowercase hexadecimal rendering without padding (Rust `format!("{n:x}")`). -/
def hexNat (n : Nat) : List Nat :=
  (Nat.toDigits 16 n).map Char.toNat

/-- Lowercase hexadecimal rendering of one byte padded to width 2
(Rust `format!("{b:02x}")`). -/
def hexByte (b : Nat) : List Nat :=
  let ds := (Nat.toDigits 16 b).map Char.toNat
  if ds.length = 1 then 48 :: ds else ds

/-- `hex::encode` from dns.rs: concatenation of two-digit lowercase hex bytes. -/
def hexEncode (data : List Nat) : List Nat :=
  (data.map hexByte).flatten

/-- `labels.join(".")` at the byte level. -/
def joinDot (labels : List (List Nat)) : List Nat :=
  List.intercalate [46] labels

/-- `read_u16` from dns.rs: big-endian 16-bit read, 0 on overrun. -/
def read_u16 (buf : List Nat) (offset : Nat) : Nat :=
  if offset + 2 ≤ buf.length then
    (buf.getD offset 0) * 256 + buf.getD (offset + 1) 0
  else 0

/-- `read_u32` from dns.rs: big-endian 32-bit read, 0 on overrun. -/
def read_u32 (buf : List Nat) (offset : Nat) : Nat :=
  if offset + 4 ≤ buf.length then
    ((buf.getD offset 0) * 256 + buf.getD (offset + 1) 0) * 65536
      + (buf.getD (offset + 2) 0) * 256 + buf.getD (offset + 3) 0
  else 0

/-- `rcode_str` from dns.rs. -/
def rcodeStr (rcode : Nat) : String :=
  if rcode = 0 then "NOERROR"
  else if rcode = 1 then "FORMERR"
  else if rcode = 2 then "SERVFAIL"
  else if rcode = 3 then "NXDOMAIN"
  else if rcode = 4 then "NOTIMP"
  else if rcode = 5 then "REFUSED"
  else "UNKNOWN"

/-- The TYPE-code → record-type-label match in `query` (dns.rs lines 327-337). -/
def rtypeName (rtype : Nat) : String :=
  if rtype = 1 then "A"
  else if rtype = 28 then "AAAA"
  else if rtype = 5 then "CNAME"
  else if rtype = 2 then "NS"
  else if rtype = 15 then "MX"
  else if rtype = 16 then "TXT"
  else if rtype = 6 then "SOA"
  else if rtype = 12 then "PTR"
  else "UNKNOWN"

/-- `RecordType` from dns.rs. -/
inductive RecordType where
  | A | AAAA | MX | TXT | CNAME | NS | SOA | PTR
deriving DecidableEq, Repr, Fintype

/-- `RecordType::to_qtype`. -/
def RecordType.to_qtype : RecordType → Nat
  | .A => 1
  | .AAAA => 28
  | .MX => 15
  | .TXT => 16
  | .CNAME => 5
  | .NS => 2
  | .SOA => 6
  | .PTR => 12

/-- Rust's `str::to_uppercase`, modelled as per-character uppercasing
(exact on ASCII input, which is all the vocabulary compared against). -/
def asciiUpper (s : String) : String :=
  ⟨s.data.map Char.toUpper⟩

/-- `RecordType::from_str_loose`.  The sequential match on
`s.to_uppercase().as_str()` is written as the equivalent comparison
chain. -/
def RecordType.from_str_loose (s : String) : Option RecordType :=
  let u := asciiUpper s
  if u = "A" then some .A
  else if u = "AAAA" then some .AAAA
  else if u = "MX" then some .MX
  else if u = "TXT" then some .TXT
  else if u = "CNAME" then some .CNAME
  else if u = "NS" then some .NS
  else if u = "SOA" then some .SOA
  else if u = "PTR" then some .PTR
  else none

/-- The canonical textual name of each record type (the uppercase strings the
Rust match compares against, which also equal the `Display`/`Debug` output). -/
def canonicalName : RecordType → String
  | .A => "A"
  | .AAAA => "AAAA"
  | .MX => "MX"
  | .TXT => "TXT"
  | .CNAME => "CNAME"
  | .NS => "NS"
  | .SOA => "SOA"
  | .PTR => "PTR"

/-- One label of the question section as encoded by `build_query`:
a length octet (`label.len() as u8`) followed by the label bytes. -/
def encodeLabel (label : List Nat) : List Nat :=
  (label.length % 256) :: label

/-- `domain.split('.')` at the byte level. -/
def splitOnDot (domain : List Nat) : List (List Nat) :=
  domain.splitOn 46

/-- `build_query` from dns.rs: fixed 12-byte header, length-prefixed labels,
root label, QTYPE big-endian, QCLASS=IN. -/
def buildQuery (domain : List Nat) (qtype : Nat) : List Nat :=
  [0xAB, 0xCD, 0x01, 0x00, 0x00, 0x01, 0x00, 0x00, 0x00, 0x00, 0x00, 0x00]
    ++ ((splitOnDot domain).map encodeLabel).flatten
    ++ [0]
    ++ [qtype / 256 % 256, qtype % 256]
    ++ [0x00, 0x01]

/-- The mutable state of the `parse_name` loop (dns.rs lines 116-144). -/
structure NameSt where
  labels : List (List Nat)
  jumped : Bool
  jump_back : Nat
  pos : Nat
deriving DecidableEq, Repr

/-- Outcome of one iteration of the `parse_name` loop body: `done` is a
`break` (possibly after the `pos += 1` of the zero terminator), `next` is
the state carried into the following iteration. -/
inductive StepRes where
  | done : NameSt → StepRes
  | next : NameSt → StepRes
deriving DecidableEq, Repr

/-- One iteration of the `parse_name` loop body (dns.rs lines 121-144):
stop at the buffer end or a zero length octet; follow a compression
pointer, recording `jump_back` only the first time; otherwise consume a
label (pushed only if it lies inside the buffer). -/
def nameStep (buf : List Nat) (st : NameSt) : StepRes :=
  if buf.length ≤ st.pos then .done st
  else
    let len := buf.getD st.pos 0
    if len = 0 then .done { st with pos := st.pos + 1 }
    else if len &&& 0xC0 = 0xC0 then
      let ptr := ((len &&& 0x3F) <<< 8) ||| buf.getD (st.pos + 1) 0
      .next
        { st with
          pos := ptr
          jumped := true
          jump_back := if st.jumped then st.jump_back else st.pos + 2 }
    else
      let pos1 := st.pos + 1
      .next
        { st with
          pos := pos1 + len
          labels :=
            if pos1 + len ≤ buf.length then
              st.labels ++ [(buf.drop pos1).take len]
            else st.labels }

/-- The `loop` of `parse_name`, with explicit fuel: each iteration spends
one unit; the source loop has no such bound, so a state from which every
fuel amount yields `.fuelOut` is a state on which the Rust loop never
terminates. -/
def parseNameLoop : Nat → List Nat → NameSt → PRes NameSt
  | 0, _, _ => .fuelOut
  | fuel + 1, buf, st =>
    match nameStep buf st with
    | .done st' => .ok st'
    | .next st1 => parseNameLoop fuel buf st1

/-- `parse_name` from dns.rs: returns the decoded name (labels joined with
dots) and the final value of the caller's offset (`jump_back` if a pointer
was followed, the cursor position otherwise). -/
def parseName (fuel : Nat) (buf : List Nat) (offset : Nat) :
    PRes (List Nat × Nat) :=
  match parseNameLoop fuel buf ⟨[], false, 0, offset⟩ with
  | .ok st => .ok (joinDot st.labels, if st.jumped then st.jump_back else st.pos)
  | .panic => .panic
  | .fuelOut => .fuelOut

example : parseName 5 (str "\x03foo\x03bar\x00") 0 = .ok (str "foo.bar", 9) := by
  decide

example : parseName 5 [] 0 = .ok ([], 0) := by decide

example : parseName 5 (str "\x03foo") 0 = .ok (str "foo", 4) := by decide

/-- The TXT `while pos < end` loop of `parse_rdata` (dns.rs lines 228-237).
`buf[pos]` panics when `pos` is inside the declared RDATA range but past the
end of the buffer, and the slice `buf[pos..pos+tlen]` panics when its guard
`pos + tlen <= end` holds but the range leaves the buffer.  The cursor
advances by at least one byte per iteration, so the loop runs at most
`e - pos` times; it is written with structural fuel and called with fuel
`rdlength + 1`, which therefore never runs out. -/
def txtLoop (buf : List Nat) (e : Nat) :
    Nat → Nat → List (List Nat) → PRes (List (List Nat))
  | 0, _, _ => .fuelOut
  | tfuel + 1, pos, texts =>
    if pos < e then
      match buf.get? pos with
      | none => .panic
      | some tlen =>
        let pos1 := pos + 1
        if pos1 + tlen ≤ e then
          if pos1 + tlen ≤ buf.length then
            txtLoop buf e tfuel (pos1 + tlen)
              (texts ++ [(buf.drop pos1).take tlen])
          else .panic
        else txtLoop buf e tfuel (pos1 + tlen) texts
    else .ok texts

/-- The `result` value computed by `parse_rdata` (dns.rs lines 195-249).
The Rust `match rtype` with its two guarded arms (`1 if rdlength == 4`,
`28 if rdlength == 16`) is written as the equivalent sequential comparison
chain; a guarded arm that fails its guard falls through to the final
hex-dump arm. -/
def parseRdataVal (fuel : Nat) (buf : List Nat)
    (offset rdlength rtype : Nat) : PRes (List Nat) :=
  let start := offset
  let e := start + rdlength
  if rtype = 1 ∧ rdlength = 4 then
      match buf.get? start, buf.get? (start + 1),
            buf.get? (start + 2), buf.get? (start + 3) with
      | some b0, some b1, some b2, some b3 =>
          .ok (decimal b0 ++ 46 :: decimal b1 ++ 46 :: decimal b2
                ++ 46 :: decimal b3)
      | _, _, _, _ => .panic
    else if rtype = 28 ∧ rdlength = 16 then
      .ok (List.intercalate [58]
        ((List.range 8).map fun i => hexNat (read_u16 buf (start + i * 2))))
    else if rtype = 5 ∨ rtype = 2 ∨ rtype = 12 then
      match parseName fuel buf start with
      | .ok (name, _) => .ok name
      | .panic => .panic
      | .fuelOut => .fuelOut
    else if rtype = 15 then
      match parseName fuel buf (start + 2) with
      | .ok (exchange, _) =>
          .ok (decimal (read_u16 buf start) ++ 32 :: exchange)
      | .panic => .panic
      | .fuelOut => .fuelOut
    else if rtype = 16 then
      match txtLoop buf e (rdlength + 1) start [] with
      | .ok texts => .ok (List.intercalate [32] texts)
      | .panic => .panic
      | .fuelOut => .fuelOut
    else if rtype = 6 then
      match parseName fuel buf start with
      | .ok (mname, pos1) =>
        match parseName fuel buf pos1 with
        | .ok (rname, pos2) =>
            .ok (mname ++ 32 :: rname ++ 32 :: decimal (read_u32 buf pos2))
        | .panic => .panic
        | .fuelOut => .fuelOut
      | .panic => .panic
      | .fuelOut => .fuelOut
    else
      .ok (hexEncode
        (if e ≤ buf.length then (buf.drop start).take rdlength else []))

/-- `parse_rdata` from dns.rs: the decoded display string paired with the
new cursor; on every normal return the cursor is `start + rdlength`
(`*offset = end` runs after the match, unconditionally). -/
def parseRdata (fuel : Nat) (buf : List Nat)
    (offset rdlength rtype : Nat) : PRes (List Nat × Nat) :=
  match parseRdataVal fuel buf offset rdlength rtype with
  | .ok r => .ok (r, offset + rdlength)
  | .panic => .panic
  | .fuelOut => .fuelOut

example : parseRdata 1 [192, 168, 1, 1] 0 4 1 = .ok (str "192.168.1.1", 4) := by
  decide

example :
    parseRdata 1 [0x20, 0x01, 0x0d, 0xb8, 0, 0, 0, 0, 0, 0, 0, 0, 0, 0, 0, 1]
      0 16 28 = .ok (str "2001:db8:0:0:0:0:0:1", 16) := by decide

example :
    parseRdata 9 [0, 10, 4, 109, 97, 105, 108, 0] 0 8 15
      = .ok (str "10 mail", 8) := by decide

example :
    parseRdata 1 (str "\x05hello\x05world") 0 12 16
      = .ok (str "hello world", 12) := by decide

example : parseRdata 1 [1, 2, 3, 4] 0 4 999 = .ok (str "01020304", 4) := by
  decide

/-- `DnsRecord` from dns.rs (name and value as byte strings; the
record-type label is one of the nine static strings of `rtypeName`). -/
structure DnsRecordM where
  name : List Nat
  record_type : String
  ttl : Nat
  value : List Nat
deriving DecidableEq, Repr

/-- `DnsResult` from dns.rs, restricted to the fields computed from the
response bytes (domain, resolver, queried type and wall-clock time are
copied from the config / measured, not decoded). -/
structure DnsResultM where
  records : List DnsRecordM
  response_code : String
  truncated : Bool
  recursion_available : Bool
  authenticated_data : Bool
deriving DecidableEq, Repr

/-- The question-skipping loop of `query` (dns.rs lines 301-306):
`qdcount` iterations of `parse_name` followed by 4 bytes of QTYPE+QCLASS. -/
def skipQuestions (fuel : Nat) (buf : List Nat) :
    Nat → Nat → PRes Nat
  | 0, offset => .ok offset
  | n + 1, offset =>
    match parseName fuel buf offset with
    | .ok (_, off1) => skipQuestions fuel buf n (off1 + 4)
    | .panic => .panic
    | .fuelOut => .fuelOut

/-- The answer-section loop of `query` (dns.rs lines 310-347): up to
`ancount` records; breaks early when the cursor reaches the buffer end or
fewer than 10 header bytes remain; otherwise reads TYPE, CLASS (ignored),
TTL and RDLENGTH, decodes the RDATA and appends the record. -/
def answerLoop (fuel : Nat) (buf : List Nat) :
    Nat → Nat → List DnsRecordM → PRes (List DnsRecordM)
  | 0, _, acc => .ok acc
  | n + 1, offset, acc =>
    if buf.length ≤ offset then .ok acc
    else
      match parseName fuel buf offset with
      | .ok (name, off1) =>
        if buf.length < off1 + 10 then .ok acc
        else
          let rtype := read_u16 buf off1
          let ttl := read_u32 buf (off1 + 4)
          let rdlength := read_u16 buf (off1 + 8)
          match parseRdata fuel buf (off1 + 10) rdlength rtype with
          | .ok (value, off2) =>
              answerLoop fuel buf n off2
                (acc ++ [⟨name, rtypeName rtype, ttl, value⟩])
          | .panic => .panic
          | .fuelOut => .fuelOut
      | .panic => .panic
      | .fuelOut => .fuelOut

/-- The response-decoding tail of `query` (dns.rs lines 288-360), as a
function of the received datagram bytes: the only `Err` after a datagram
has been received is "Response too short" for fewer than 12 bytes;
otherwise the header fields are read, the question section skipped and the
answer section decoded. -/
def queryParse (fuel : Nat) (resp : List Nat) :
    PRes (Except String DnsResultM) :=
  if resp.length < 12 then .ok (.error "Response too short")
  else
    let flags := read_u16 resp 2
    let rcode := flags &&& 0x000F
    let ancount := read_u16 resp 6
    let qdcount := read_u16 resp 4
    match skipQuestions fuel resp qdcount 12 with
    | .ok offset =>
      match answerLoop fuel resp ancount offset [] with
      | .ok records =>
          .ok (.ok
            { records := records
              response_code := rcodeStr rcode
              truncated := flags &&& 0x0200 ≠ 0
              recursion_available := flags &&& 0x0080 ≠ 0
              authenticated_data := flags &&& 0x0020 ≠ 0 })
      | .panic => .panic
      | .fuelOut => .fuelOut
    | .panic => .panic
    | .fuelOut => .fuelOut

example :
    queryParse 1 [0xAB, 0xCD, 0x81, 0x83, 0, 0, 0, 0, 0, 0, 0, 0]
      = .ok (.ok
          { records := []
            response_code := "NXDOMAIN"
            truncated := false
            recursion_available := true
            authenticated_data := false }) := rfl

example : queryParse 1 [1, 2, 3] = .ok (.error "Response too short") := rfl

/-! ### Helper lemmas about the `parse_name` loop -/

/-- Field bookkeeping of a `break` step: `jumped`, `jump_back` and the
label list are untouched, and the step was either the buffer-end exit
(state unchanged) or the zero-terminator exit (cursor one past the zero
octet). -/
lemma nameStep_done (buf : List Nat) (st st' : NameSt)
    (h : nameStep buf st = .done st') :
    st'.jumped = st.jumped ∧ st'.jump_back = st.jump_back ∧
      st'.labels = st.labels ∧
      ((buf.length ≤ st.pos ∧ st' = st) ∨
        (st.pos < buf.length ∧ st'.pos = st.pos + 1
          ∧ buf.getD st.pos 0 = 0)) := by
  simp only [nameStep] at h
  split at h
  case isTrue h1 =>
    simp only [StepRes.done.injEq] at h
    subst h
    exact ⟨rfl, rfl, rfl, Or.inl ⟨h1, rfl⟩⟩
  case isFalse h1 =>
    split at h
    case isTrue h2 =>
      simp only [StepRes.done.injEq] at h
      subst h
      exact ⟨rfl, rfl, rfl, Or.inr ⟨not_le.mp h1, rfl, h2⟩⟩
    case isFalse h2 =>
      split at h
      case isTrue h3 => cases h
      case isFalse h3 => cases h

/-- Field bookkeeping of a `continue` step: it happened strictly inside
the buffer, and was either a pointer jump (setting `jumped`, recording
`jump_back = pos + 2` only on the first jump) or a label consumption
(advancing the cursor by one plus the length octet, all other control
fields unchanged). -/
lemma nameStep_next (buf : List Nat) (st st₁ : NameSt)
    (h : nameStep buf st = .next st₁) :
    st.pos < buf.length ∧ buf.getD st.pos 0 ≠ 0 ∧
      ((buf.getD st.pos 0 &&& 0xC0 = 0xC0 ∧ st₁.jumped = true ∧
          st₁.labels = st.labels ∧
          st₁.pos = ((buf.getD st.pos 0 &&& 0x3F) <<< 8)
            ||| buf.getD (st.pos + 1) 0 ∧
          st₁.jump_back
            = (if st.jumped then st.jump_back else st.pos + 2)) ∨
        (buf.getD st.pos 0 &&& 0xC0 ≠ 0xC0 ∧ st₁.jumped = st.jumped ∧
          st₁.jump_back = st.jump_back ∧
          st₁.pos = st.pos + 1 + buf.getD st.pos 0)) := by
  simp only [nameStep] at h
  split at h
  case isTrue h1 => cases h
  case isFalse h1 =>
    split at h
    case isTrue h2 => cases h
    case isFalse h2 =>
      split at h
      case isTrue h3 =>
        simp only [StepRes.next.injEq] at h
        subst h
        exact ⟨not_le.mp h1, h2, Or.inl ⟨h3, rfl, rfl, rfl, rfl⟩⟩
      case isFalse h3 =>
        simp only [StepRes.next.injEq] at h
        subst h
        exact ⟨not_le.mp h1, h2, Or.inr ⟨h3, rfl, rfl, rfl⟩⟩

/-- Once a pointer has been followed (`jumped = true`), later iterations
never change `jump_back` (and `jumped` stays set). -/
lemma parseNameLoop_freeze (buf : List Nat) :
    ∀ (fuel : Nat) (st st' : NameSt), st.jumped = true →
      parseNameLoop fuel buf st = .ok st' →
      st'.jumped = true ∧ st'.jump_back = st.jump_back := by
  intro fuel
  induction fuel with
  | zero => intro st st' hj h; simp [parseNameLoop] at h
  | succ n ih =>
    intro st st' hj h
    rw [parseNameLoop] at h
    cases hs : nameStep buf st with
    | done c =>
      rw [hs] at h
      simp only [PRes.ok.injEq] at h
      rw [← h]
      obtain ⟨e1, e2, _, _⟩ := nameStep_done buf st c hs
      exact ⟨e1.trans hj, e2⟩
    | next st₁ =>
      rw [hs] at h
      obtain ⟨_, _, hcase⟩ := nameStep_next buf st st₁ hs
      rcases hcase with ⟨_, hj1, _, _, hjb1⟩ | ⟨_, hj1, hjb1, _⟩
      · obtain ⟨a, b⟩ := ih st₁ st' hj1 h
        rw [hjb1, if_pos hj] at b
        exact ⟨a, b⟩
      · obtain ⟨a, b⟩ := ih st₁ st' (hj1.trans hj) h
        exact ⟨a, b.trans hjb1⟩

/-- From a not-yet-jumped state, the loop either finishes without ever
jumping, with a cursor that never moved backwards (and moved strictly
forward if it started inside the buffer), or it jumps at some position at
or after the start, fixing `jump_back` at least two bytes further on. -/
lemma parseNameLoop_mono (buf : List Nat) :
    ∀ (fuel : Nat) (st st' : NameSt), st.jumped = false →
      parseNameLoop fuel buf st = .ok st' →
      (st'.jumped = false ∧ st.pos ≤ st'.pos
        ∧ (st.pos < buf.length → st.pos < st'.pos))
      ∨ (st'.jumped = true ∧ st.pos + 2 ≤ st'.jump_back) := by
  intro fuel
  induction fuel with
  | zero => intro st st' hj h; simp [parseNameLoop] at h
  | succ n ih =>
    intro st st' hj h
    rw [parseNameLoop] at h
    cases hs : nameStep buf st with
    | done c =>
      rw [hs] at h
      simp only [PRes.ok.injEq] at h
      rw [← h]
      obtain ⟨e1, _, _, hcase⟩ := nameStep_done buf st c hs
      rcases hcase with ⟨hge, he⟩ | ⟨_, hpos, _⟩
      · exact Or.inl ⟨e1.trans hj, by simp [he],
          fun hlt => absurd hlt (not_lt.mpr hge)⟩
      · exact Or.inl ⟨e1.trans hj, by omega, fun _ => by omega⟩
    | next st₁ =>
      rw [hs] at h
      obtain ⟨_, _, hcase⟩ := nameStep_next buf st st₁ hs
      rcases hcase with ⟨_, hj1, _, _, hjb1⟩ | ⟨_, hj1, hjb1, hpos1⟩
      · obtain ⟨a, b⟩ := parseNameLoop_freeze buf n st₁ st' hj1 h
        rw [hjb1, if_neg (by simp [hj])] at b
        exact Or.inr ⟨a, b.ge⟩
      · rcases ih st₁ st' (hj1.trans hj) h with ⟨hf, hle, _⟩ | ⟨ht, hjb⟩
        · rw [hpos1] at hle
          exact Or.inl ⟨hf, by omega, fun _ => by omega⟩
        · rw [hpos1] at hjb
          exact Or.inr ⟨ht, by omega⟩

/-- If the loop finishes with `jumped` still false, it started with
`jumped` false and ended either because the cursor left the buffer or just
past a zero-length terminator octet. -/
lemma parseNameLoop_noJump_exit (buf : List Nat) :
    ∀ (fuel : Nat) (st st' : NameSt),
      parseNameLoop fuel buf st = .ok st' → st'.jumped = false →
      st.jumped = false ∧
        (buf.length ≤ st'.pos
          ∨ (1 ≤ st'.pos ∧ buf.getD (st'.pos - 1) 0 = 0)) := by
  intro fuel
  induction fuel with
  | zero => intro st st' h hj; simp [parseNameLoop] at h
  | succ n ih =>
    intro st st' h hj
    rw [parseNameLoop] at h
    cases hs : nameStep buf st with
    | done c =>
      rw [hs] at h
      simp only [PRes.ok.injEq] at h
      rw [← h] at hj ⊢
      obtain ⟨e1, _, _, hcase⟩ := nameStep_done buf st c hs
      rcases hcase with ⟨hge, he⟩ | ⟨_, hpos, hzero⟩
      · exact ⟨e1.symm.trans hj, Or.inl (by simpa [he] using hge)⟩
      · refine ⟨e1.symm.trans hj, Or.inr ⟨by omega, ?_⟩⟩
        rw [hpos]
        simpa using hzero
    | next st₁ =>
      rw [hs] at h
      obtain ⟨_, _, hcase⟩ := nameStep_next buf st st₁ hs
      rcases hcase with ⟨_, hj1, _, _, _⟩ | ⟨_, hj1, _, _⟩
      · obtain ⟨hja, _⟩ := parseNameLoop_freeze buf n st₁ st' hj1 h
        simp [hja] at hj
      · obtain ⟨a, b⟩ := ih st₁ st' h hj
        exact ⟨hj1.symm.trans a, b⟩

/-! ### C1: out-of-bounds reads while decoding -/

/-- C1: the claim that decoding never reads out of bounds is FALSE of the
code.  With TYPE=1 and RDLENGTH=4 on a 2-byte buffer, `parse_rdata`
evaluates `buf[start + 2]` past the end of the buffer (a Rust panic), and
with TYPE=16 and a declared RDLENGTH that extends past the end of an empty
buffer the TXT loop evaluates `buf[pos]` out of bounds as well; neither
returns partial or default output. -/
theorem parse_rdata_oob_panics :
    (∀ fuel : Nat, parseRdata fuel [1, 2] 0 4 1 = .panic) ∧
    (∀ fuel : Nat, parseRdata fuel [] 0 2 16 = .panic) := by
  exact ⟨fun _ => rfl, fun _ => rfl⟩

/-! ### C2: termination of `parse_name` -/

/-- From the state just after following the self-referential pointer at
offset 0 of the buffer `[0xC0, 0x00]`, every loop iteration reproduces the
same state, so the loop never finishes no matter how much fuel it gets. -/
lemma parseNameLoop_self_pointer (fuel : Nat) :
    parseNameLoop fuel [0xC0, 0x00] ⟨[], true, 2, 0⟩ = .fuelOut := by
  induction fuel with
  | zero => rfl
  | succ n ih => exact ih

/-- C2: the claim that `parse_name` always terminates is FALSE of the
code.  On the buffer `[0xC0, 0x00]` — a compression pointer whose 14-bit
target is its own offset — the loop returns to the same state forever:
for every fuel bound the run is still unfinished, which is exactly a
non-terminating run of the unbounded Rust loop. -/
theorem parse_name_self_pointer_diverges :
    ∀ fuel : Nat, parseName fuel [0xC0, 0x00] 0 = .fuelOut := by
  intro fuel
  cases fuel with
  | zero => rfl
  | succ n =>
    have h : parseNameLoop (n + 1) [0xC0, 0x00] ⟨[], false, 0, 0⟩
        = parseNameLoop n [0xC0, 0x00] ⟨[], true, 2, 0⟩ := rfl
    unfold parseName
    rw [h, parseNameLoop_self_pointer]

/-! ### C4: `parse_rdata` advances the cursor by exactly RDLENGTH -/

/-- C4: whenever `parse_rdata` returns, the new cursor is the starting
cursor plus exactly RDLENGTH, for every buffer, starting position,
RDLENGTH and TYPE code, and regardless of which type-specific branch ran
or how many bytes it consumed. -/
theorem parse_rdata_advances_rdlength
    (fuel : Nat) (buf : List Nat) (off rdlen rtype : Nat)
    (val : List Nat) (off' : Nat)
    (h : parseRdata fuel buf off rdlen rtype = .ok (val, off')) :
    off' = off + rdlen := by
  unfold parseRdata at h
  cases hres : parseRdataVal fuel buf off rdlen rtype <;> rw [hres] at h
  · cases h
  · cases h
  · simp only [PRes.ok.injEq, Prod.mk.injEq] at h
    exact h.2.symm

/-- Witness for C4 at a concrete input: TYPE 999 on an empty buffer from
cursor 95 with RDLENGTH 4 returns cursor 99 = 95 + 4. -/
theorem parse_rdata_advances_rdlength_witness : (99 : Nat) = 95 + 4 :=
  parse_rdata_advances_rdlength 1 [] 95 4 999 [] 99 rfl

/-! ### C6: the first compression pointer fixes the resume-after cursor -/

/-- C6: (i) once a pointer has been followed, no later iteration updates
the resume-after cursor `jump_back` (chained pointers are still followed,
`jumped` stays set); (ii) the first pointer encountered — at a cursor
position holding a nonzero octet with both top bits set — fixes
`jump_back` at that position plus two and continues reading at the
pointer's 14-bit target; (iii) if no pointer was ever seen, the loop ends
either at the buffer end or with the cursor one past a zero-length
terminator octet (and `parse_name` returns that cursor). -/
theorem parse_name_resume_cursor :
    (∀ (fuel : Nat) (buf : List Nat) (st st' : NameSt), st.jumped = true →
        parseNameLoop fuel buf st = .ok st' →
        st'.jumped = true ∧ st'.jump_back = st.jump_back) ∧
    (∀ (fuel : Nat) (buf : List Nat) (st : NameSt), st.jumped = false →
        st.pos < buf.length → buf.getD st.pos 0 ≠ 0 →
        buf.getD st.pos 0 &&& 0xC0 = 0xC0 →
        parseNameLoop (fuel + 1) buf st =
          parseNameLoop fuel buf
            ⟨st.labels, true, st.pos + 2,
              ((buf.getD st.pos 0 &&& 0x3F) <<< 8)
                ||| buf.getD (st.pos + 1) 0⟩) ∧
    (∀ (fuel : Nat) (buf : List Nat) (st st' : NameSt),
        parseNameLoop fuel buf st = .ok st' → st'.jumped = false →
        (buf.length ≤ st'.pos
          ∨ (1 ≤ st'.pos ∧ buf.getD (st'.pos - 1) 0 = 0))) := by
  refine ⟨fun fuel buf st st' => parseNameLoop_freeze buf fuel st st',
    fun fuel buf st hj hlt hne hptr => ?_,
    fun fuel buf st st' h hj => (parseNameLoop_noJump_exit buf fuel st st' h hj).2⟩
  have hs : nameStep buf st =
      .next ⟨st.labels, true, st.pos + 2,
        ((buf.getD st.pos 0 &&& 0x3F) <<< 8) ||| buf.getD (st.pos + 1) 0⟩ := by
    simp only [nameStep]
    rw [if_neg (not_le.mpr hlt), if_neg hne, if_pos hptr,
      if_neg (by simp [hj])]
  rw [parseNameLoop, hs]

/-- Witness for C6 at a concrete input: on the buffer `[0xC0,0,0]` the
pointer at offset 0 is the first one, so the next loop state reads at the
pointer target 0 with the resume-after cursor fixed at 2. -/
theorem parse_name_resume_cursor_witness :
    parseNameLoop 4 [0xC0, 0x00, 0x00] ⟨[], false, 0, 0⟩
      = parseNameLoop 3 [0xC0, 0x00, 0x00] ⟨[], true, 2, 0⟩ :=
  parse_name_resume_cursor.2.1 3 [0xC0, 0x00, 0x00] ⟨[], false, 0, 0⟩
    rfl (by decide) (by decide) (by decide)

/-! ### C9: `parse_name` never moves the caller's cursor backwards -/

/-- C9: whenever `parse_name` returns, the returned cursor is at least the
starting offset, and strictly larger when the starting offset was strictly
inside the buffer. -/
theorem parse_name_cursor_monotone (fuel : Nat) (buf : List Nat)
    (off : Nat) (name : List Nat) (off' : Nat)
    (h : parseName fuel buf off = .ok (name, off')) :
    off ≤ off' ∧ (off < buf.length → off < off') := by
  unfold parseName at h
  cases hl : parseNameLoop fuel buf ⟨[], false, 0, off⟩ <;> rw [hl] at h
  · cases h
  · cases h
  case ok st' =>
    simp only [PRes.ok.injEq, Prod.mk.injEq] at h
    obtain ⟨-, hoff⟩ := h
    subst hoff
    rcases parseNameLoop_mono buf fuel ⟨[], false, 0, off⟩ st' rfl hl with
      ⟨hf, hle, hstrict⟩ | ⟨ht, hjb⟩
    · rw [if_neg (by simp [hf])]
      have hle' : off ≤ st'.pos := hle
      have hstrict' : off < buf.length → off < st'.pos := hstrict
      exact ⟨hle', hstrict'⟩
    · rw [if_pos ht]
      have hjb' : off + 2 ≤ st'.jump_back := hjb
      exact ⟨by omega, fun _ => by omega⟩

/-- Witness for C9 at a concrete input: decoding `3foo3bar0` from offset 0
returns cursor 9 ≥ 0, strictly past the start. -/
theorem parse_name_cursor_monotone_witness :
    (0 : Nat) ≤ 9 ∧ (0 < (str "\x03foo\x03bar\x00").length → (0 : Nat) < 9) :=
  parse_name_cursor_monotone 5 (str "\x03foo\x03bar\x00") 0
    (str "foo.bar") 9 (by decide)

/-! ### C5: after a datagram arrives, Err iff shorter than 12 bytes -/

/-- C5: once a datagram has been received, the decoding tail of `query`
reports an error exactly for datagrams shorter than the 12-byte header:
any shorter datagram yields `Err("Response too short")`, and whenever the
decoder returns on a datagram of length ≥ 12 it returns `Ok` — even with
zero decoded answer records, as on an NXDOMAIN response. -/
theorem query_format_error_iff_short :
    (∀ (fuel : Nat) (resp : List Nat), resp.length < 12 →
        queryParse fuel resp = .ok (.error "Response too short")) ∧
    (∀ (fuel : Nat) (resp : List Nat) (r : Except String DnsResultM),
        queryParse fuel resp = .ok r →
        ((∃ e, r = .error e) ↔ resp.length < 12)) := by
  constructor
  · intro fuel resp h
    unfold queryParse
    rw [if_pos h]
  · intro fuel resp r h
    simp only [queryParse] at h
    by_cases hlen : resp.length < 12
    · rw [if_pos hlen] at h
      simp only [PRes.ok.injEq] at h
      subst h
      exact ⟨fun _ => hlen, fun _ => ⟨_, rfl⟩⟩
    · rw [if_neg hlen] at h
      cases hsq : skipQuestions fuel resp (read_u16 resp 4) 12
        <;> simp only [hsq] at h
      · exact PRes.noConfusion h
      · exact PRes.noConfusion h
      next offset =>
        cases hal : answerLoop fuel resp (read_u16 resp 6) offset []
          <;> simp only [hal] at h
        · exact PRes.noConfusion h
        · exact PRes.noConfusion h
        next records =>
          simp only [PRes.ok.injEq] at h
          subst h
          constructor
          · rintro ⟨e, he⟩
            cases he
          · intro hc
            exact absurd hc hlen

/-- Witness for C5 at a concrete input: a bare 12-byte NXDOMAIN header
(RCODE 3, ANCOUNT 0) is decoded as success with an empty record list, so
the Err case is not taken. -/
theorem query_format_error_iff_short_witness :
    (∃ e, (Except.ok
        { records := []
          response_code := "NXDOMAIN"
          truncated := false
          recursion_available := true
          authenticated_data := false } : Except String DnsResultM)
      = .error e)
      ↔ ([0xAB, 0xCD, 0x81, 0x83, 0, 0, 0, 0, 0, 0, 0, 0] : List Nat).length < 12 :=
  query_format_error_iff_short.2 1 [0xAB, 0xCD, 0x81, 0x83, 0, 0, 0, 0, 0, 0, 0, 0]
    (.ok
      { records := []
        response_code := "NXDOMAIN"
        truncated := false
        recursion_available := true
        authenticated_data := false }) rfl

/-! ### C7: RecordType bijection and case-insensitive parsing -/

/-- C7: `to_qtype` is injective on the eight record kinds with exactly the
codes A=1, NS=2, CNAME=5, SOA=6, PTR=12, MX=15, TXT=16, AAAA=28;
`from_str_loose` accepts a string exactly when its uppercasing is one of
the eight canonical names (hence is case-insensitive) and rejects every
other string, e.g. "SRV" and "". -/
theorem record_type_bijection_case_insensitive :
    (∀ r1 r2 : RecordType, r1.to_qtype = r2.to_qtype → r1 = r2) ∧
    (RecordType.A.to_qtype = 1 ∧ RecordType.NS.to_qtype = 2 ∧
      RecordType.CNAME.to_qtype = 5 ∧ RecordType.SOA.to_qtype = 6 ∧
      RecordType.PTR.to_qtype = 12 ∧ RecordType.MX.to_qtype = 15 ∧
      RecordType.TXT.to_qtype = 16 ∧ RecordType.AAAA.to_qtype = 28) ∧
    (∀ (s : String) (rt : RecordType),
      RecordType.from_str_loose s = some rt ↔ asciiUpper s = canonicalName rt) ∧
    (RecordType.from_str_loose "aaaa" = some .AAAA ∧
      RecordType.from_str_loose "AAAA" = some .AAAA ∧
      RecordType.from_str_loose "AaAa" = some .AAAA ∧
      RecordType.from_str_loose "SRV" = none ∧
      RecordType.from_str_loose "" = none) := by
  refine ⟨by decide, by decide, ?_, by decide⟩
  intro s rt
  simp only [RecordType.from_str_loose]
  split_ifs with h1 h2 h3 h4 h5 h6 h7 h8 <;>
    cases rt <;> simp_all [canonicalName]

/-- Witness for C7 at a concrete input: "aaaa" parses (case-insensitively)
to the AAAA record kind. -/
theorem record_type_bijection_case_insensitive_witness :
    RecordType.from_str_loose "aaaa" = some RecordType.AAAA :=
  (record_type_bijection_case_insensitive.2.2.1 "aaaa" .AAAA).mpr (by decide)

/-! ### C8 and C10: RDATA decoding results -/

/-- When no type-specific arm of `parse_rdata` applies (unknown TYPE, or a
guarded A/AAAA arm whose RDLENGTH guard fails), the result is the
lowercase hex dump of `buf.get(start..end).unwrap_or_default()`. -/
lemma parseRdataVal_fallback (fuel : Nat) (buf : List Nat)
    (off rdlen rtype : Nat)
    (h1 : ¬(rtype = 1 ∧ rdlen = 4)) (h2 : ¬(rtype = 28 ∧ rdlen = 16))
    (h3 : ¬(rtype = 5 ∨ rtype = 2 ∨ rtype = 12)) (h4 : rtype ≠ 15)
    (h5 : rtype ≠ 16) (h6 : rtype ≠ 6) :
    parseRdata fuel buf off rdlen rtype
      = .ok (hexEncode (if off + rdlen ≤ buf.length
          then (buf.drop off).take rdlen else []), off + rdlen) := by
  simp only [parseRdata, parseRdataVal]
  rw [if_neg h1, if_neg h2, if_neg h3, if_neg h4, if_neg h5, if_neg h6]

/-- C8: `parse_rdata` is deterministic per type with the exact spec
results — A dotted-decimal, AAAA as eight uncompressed lowercase-hex
groups, MX as "preference exchange", TXT as space-joined character
strings — and any other TYPE code, or an RDLENGTH mismatch for A (≠4) or
AAAA (≠16), yields the lowercase hex dump of the raw RDATA bytes. -/
theorem parse_rdata_deterministic :
    (parseRdata 1 [192, 168, 1, 1] 0 4 1 = .ok (str "192.168.1.1", 4)) ∧
    (parseRdata 1 [0x20, 0x01, 0x0d, 0xb8, 0, 0, 0, 0, 0, 0, 0, 0, 0, 0, 0, 1]
        0 16 28 = .ok (str "2001:db8:0:0:0:0:0:1", 16)) ∧
    (parseRdata 9 [0, 10, 4, 109, 97, 105, 108, 0] 0 8 15
        = .ok (str "10 mail", 8)) ∧
    (parseRdata 1 (str "\x05hello\x05world") 0 12 16
        = .ok (str "hello world", 12)) ∧
    (∀ rtype : Nat, rtype ∉ ([1, 2, 5, 6, 12, 15, 16, 28] : List Nat) →
      ∀ (fuel : Nat) (buf : List Nat) (off rdlen : Nat),
        parseRdata fuel buf off rdlen rtype
          = .ok (hexEncode (if off + rdlen ≤ buf.length
              then (buf.drop off).take rdlen else []), off + rdlen)) ∧
    (∀ (fuel : Nat) (buf : List Nat) (off rdlen : Nat), rdlen ≠ 4 →
      parseRdata fuel buf off rdlen 1
        = .ok (hexEncode (if off + rdlen ≤ buf.length
            then (buf.drop off).take rdlen else []), off + rdlen)) ∧
    (∀ (fuel : Nat) (buf : List Nat) (off rdlen : Nat), rdlen ≠ 16 →
      parseRdata fuel buf off rdlen 28
        = .ok (hexEncode (if off + rdlen ≤ buf.length
            then (buf.drop off).take rdlen else []), off + rdlen)) := by
  refine ⟨by decide, by decide, by decide, by decide, ?_, ?_, ?_⟩
  · intro rtype hm fuel buf off rdlen
    simp only [List.mem_cons, List.not_mem_nil, or_false, not_or] at hm
    obtain ⟨n1, n2, n5, n6, n12, n15, n16, n28⟩ := hm
    exact parseRdataVal_fallback fuel buf off rdlen rtype
      (fun hc => n1 hc.1) (fun hc => n28 hc.1)
      (by tauto) n15 n16 n6
  · intro fuel buf off rdlen hr
    exact parseRdataVal_fallback fuel buf off rdlen 1
      (fun hc => hr hc.2) (by simp) (by simp) (by simp) (by simp) (by simp)
  · intro fuel buf off rdlen hr
    exact parseRdataVal_fallback fuel buf off rdlen 28
      (by simp) (fun hc => hr hc.2) (by simp) (by simp) (by simp) (by simp)

/-- Witness for C8 at a concrete input: TYPE=1 (A) with the mismatched
RDLENGTH 2 falls back to the hex dump of the two RDATA bytes. -/
theorem parse_rdata_deterministic_witness :
    parseRdata 1 [9, 9] 0 2 1 = .ok (str "0909", 2) :=
  parse_rdata_deterministic.2.2.2.2.2.1 1 [9, 9] 0 2 (by decide)

/-- C10: the TYPE-code → label map of the answer loop yields "UNKNOWN"
exactly off the eight supported codes and the fixed label on each of them;
for an unsupported code `parse_rdata` returns the lowercase hex dump of
the RDATA range — the empty string when that range lies outside the
buffer — and every record the answer loop appends carries a `record_type`
produced by that map. -/
theorem unknown_type_records :
    (∀ t : Nat, rtypeName t = "UNKNOWN"
        ↔ t ∉ ([1, 2, 5, 6, 12, 15, 16, 28] : List Nat)) ∧
    (rtypeName 1 = "A" ∧ rtypeName 2 = "NS" ∧ rtypeName 5 = "CNAME" ∧
      rtypeName 6 = "SOA" ∧ rtypeName 12 = "PTR" ∧ rtypeName 15 = "MX" ∧
      rtypeName 16 = "TXT" ∧ rtypeName 28 = "AAAA") ∧
    (∀ t : Nat, t ∉ ([1, 2, 5, 6, 12, 15, 16, 28] : List Nat) →
      ∀ (fuel : Nat) (buf : List Nat) (off rdlen : Nat),
        parseRdata fuel buf off rdlen t
          = .ok (hexEncode (if off + rdlen ≤ buf.length
              then (buf.drop off).take rdlen else []), off + rdlen)) ∧
    (∀ t : Nat, t ∉ ([1, 2, 5, 6, 12, 15, 16, 28] : List Nat) →
      ∀ (fuel : Nat) (buf : List Nat) (off rdlen : Nat),
        buf.length < off + rdlen →
        parseRdata fuel buf off rdlen t = .ok ([], off + rdlen)) ∧
    (∀ (fuel : Nat) (buf : List Nat) (n off : Nat) (acc out : List DnsRecordM),
      answerLoop fuel buf n off acc = .ok out →
      ∀ rec ∈ out, rec ∈ acc ∨ ∃ t, rec.record_type = rtypeName t) := by
  refine ⟨?_, by decide, ?_, ?_, ?_⟩
  · intro t
    simp only [rtypeName]
    split_ifs with g1 g2 g3 g4 g5 g6 g7 g8
    · subst g1; simp
    · subst g2; simp
    · subst g3; simp
    · subst g4; simp
    · subst g5; simp
    · subst g6; simp
    · subst g7; simp
    · subst g8; simp
    · simp only [List.mem_cons, List.not_mem_nil, or_false, not_or]
      exact iff_of_true trivial ⟨g1, g4, g3, g7, g8, g5, g6, g2⟩
  · intro t hm fuel buf off rdlen
    simp only [List.mem_cons, List.not_mem_nil, or_false, not_or] at hm
    obtain ⟨n1, n2, n5, n6, n12, n15, n16, n28⟩ := hm
    exact parseRdataVal_fallback fuel buf off rdlen t
      (fun hc => n1 hc.1) (fun hc => n28 hc.1) (by tauto) n15 n16 n6
  · intro t hm fuel buf off rdlen hlen
    simp only [List.mem_cons, List.not_mem_nil, or_false, not_or] at hm
    obtain ⟨n1, n2, n5, n6, n12, n15, n16, n28⟩ := hm
    have h := parseRdataVal_fallback fuel buf off rdlen t
      (fun hc => n1 hc.1) (fun hc => n28 hc.1) (by tauto) n15 n16 n6
    rw [if_neg (by omega)] at h
    simpa [hexEncode] using h
  · intro fuel buf n
    induction n with
    | zero =>
      intro off acc out h rec hrec
      simp only [answerLoop, PRes.ok.injEq] at h
      subst h
      exact Or.inl hrec
    | succ m ih =>
      intro off acc out h rec hrec
      simp only [answerLoop] at h
      by_cases hoff : buf.length ≤ off
      · rw [if_pos hoff] at h
        simp only [PRes.ok.injEq] at h
        subst h
        exact Or.inl hrec
      · rw [if_neg hoff] at h
        cases hpn : parseName fuel buf off <;> simp only [hpn] at h
        · exact PRes.noConfusion h
        · exact PRes.noConfusion h
        next p =>
          obtain ⟨name, off1⟩ := p
          by_cases h10 : buf.length < off1 + 10
          · rw [if_pos h10] at h
            simp only [PRes.ok.injEq] at h
            subst h
            exact Or.inl hrec
          · rw [if_neg h10] at h
            cases hrd : parseRdata fuel buf (off1 + 10)
                (read_u16 buf (off1 + 8)) (read_u16 buf off1)
              <;> simp only [hrd] at h
            · exact PRes.noConfusion h
            · exact PRes.noConfusion h
            next vp =>
              obtain ⟨value, off2⟩ := vp
              rcases ih off2
                  (acc ++ [⟨name, rtypeName (read_u16 buf off1),
                    read_u32 buf (off1 + 4), value⟩]) out h rec hrec with
                hin | hex
              · rcases List.mem_append.mp hin with ha | hb
                · exact Or.inl ha
                · have hb' := List.mem_singleton.mp hb
                  exact Or.inr ⟨read_u16 buf off1, by rw [hb']⟩
              · exact Or.inr hex

/-- Witness for C10 at a concrete input: TYPE 999 with an RDATA range past
the end of the empty buffer yields the empty hex dump. -/
theorem unknown_type_records_witness :
    parseRdata 1 [] 5 3 999 = .ok ([], 8) :=
  unknown_type_records.2.2.2.1 999 (by decide) 1 [] 5 3 (by decide)

/-! ### C3: build_query / parse_name roundtrip on the question name -/

/-- `getD` at the junction of an append picks the first element of the
suffix. -/
lemma getD_junction (pre suf : List Nat) (x d : Nat) :
    (pre ++ x :: suf).getD pre.length d = x := by
  rw [List.getD_eq_getElem?_getD, List.getElem?_append_right (le_refl _)]
  simp

/-- Running the `parse_name` loop over a stretch of wire-encoded labels
(each nonempty and at most 63 bytes, so its length octet is neither the
terminator nor a pointer tag) consumes exactly those labels, appends them
to the accumulator, never jumps, and stops one byte past the zero
terminator. -/
lemma parseNameLoop_encoded (rest : List Nat) :
    ∀ (L : List (List Nat)) (buf pre : List Nat) (acc : List (List Nat))
      (jb fuel : Nat),
      buf = pre ++ (L.map encodeLabel).flatten ++ 0 :: rest →
      (∀ l ∈ L, l ≠ [] ∧ l.length ≤ 63) →
      L.length + 1 ≤ fuel →
      parseNameLoop fuel buf ⟨acc, false, jb, pre.length⟩
        = .ok ⟨acc ++ L, false, jb,
            pre.length + (L.map encodeLabel).flatten.length + 1⟩ := by
  intro L
  induction L with
  | nil =>
    intro buf pre acc jb fuel hbuf hall hfuel
    simp only [List.map_nil, List.flatten_nil, List.append_nil] at hbuf
    obtain ⟨f, rfl⟩ : ∃ f, fuel = f + 1 := ⟨fuel - 1, by omega⟩
    subst hbuf
    rw [parseNameLoop]
    have hs : nameStep (pre ++ 0 :: rest) ⟨acc, false, jb, pre.length⟩
        = .done ⟨acc, false, jb, pre.length + 1⟩ := by
      have hlt : pre.length < (pre ++ 0 :: rest).length := by
        simp only [List.length_append, List.length_cons]
        omega
      simp only [nameStep]
      rw [if_neg (not_le.mpr hlt), getD_junction pre rest 0 0, if_pos rfl]
    rw [hs]
    simp
  | cons l L' ih =>
    intro buf pre acc jb fuel hbuf hall hfuel
    obtain ⟨f, rfl⟩ : ∃ f, fuel = f + 1 := ⟨fuel - 1, by omega⟩
    obtain ⟨hne, hlen63⟩ := hall l (List.mem_cons_self l L')
    have hmod : l.length % 256 = l.length := Nat.mod_eq_of_lt (by omega)
    have hbuf0 : buf = pre ++ (l.length % 256)
        :: (l ++ ((L'.map encodeLabel).flatten ++ 0 :: rest)) := by
      rw [hbuf]
      simp [encodeLabel, List.append_assoc]
    have hbuf1 : buf = (pre ++ [l.length % 256])
        ++ (l ++ ((L'.map encodeLabel).flatten ++ 0 :: rest)) := by
      rw [hbuf0]
      simp [List.append_assoc]
    have hlt : pre.length < buf.length := by
      rw [hbuf0]
      simp only [List.length_append, List.length_cons]
      omega
    have hgetl : buf.getD pre.length 0 = l.length := by
      rw [hbuf0, getD_junction, hmod]
    have hne0 : ¬(l.length = 0) := by
      intro hc
      exact hne (List.length_eq_zero.mp hc)
    have hptr : ¬(l.length &&& 0xC0 = 0xC0) := by
      have hle : l.length &&& 0xC0 ≤ l.length := Nat.and_le_left
      omega
    have hinb : pre.length + 1 + l.length ≤ buf.length := by
      rw [hbuf1]
      simp only [List.length_append, List.length_cons, List.length_nil]
      omega
    have hdrop : buf.drop (pre.length + 1)
        = l ++ ((L'.map encodeLabel).flatten ++ 0 :: rest) := by
      rw [hbuf1]
      have h1 : (pre ++ [l.length % 256]).length = pre.length + 1 := by simp
      rw [← h1, List.drop_left]
    have hs : nameStep buf ⟨acc, false, jb, pre.length⟩
        = .next ⟨acc ++ [l], false, jb, pre.length + 1 + l.length⟩ := by
      simp only [nameStep]
      rw [if_neg (not_le.mpr hlt), hgetl, if_neg hne0, if_neg hptr,
        if_pos hinb, hdrop, List.take_left]
    rw [parseNameLoop, hs]
    have hrest : ∀ l' ∈ L', l' ≠ [] ∧ l'.length ≤ 63 :=
      fun l' hl' => hall l' (List.mem_cons_of_mem l hl')
    have hbuf2 : buf = (pre ++ encodeLabel l)
        ++ (L'.map encodeLabel).flatten ++ 0 :: rest := by
      rw [hbuf]
      simp [encodeLabel, List.append_assoc]
    have harith : (pre ++ encodeLabel l).length = pre.length + 1 + l.length := by
      simp only [List.length_append, encodeLabel, List.length_cons]
      omega
    have hstep := ih buf (pre ++ encodeLabel l) (acc ++ [l]) jb f hbuf2 hrest
      (by simp only [List.length_cons] at hfuel; omega)
    rw [harith] at hstep
    show parseNameLoop f buf ⟨acc ++ [l], false, jb, pre.length + 1 + l.length⟩ = _
    rw [hstep]
    simp only [PRes.ok.injEq, NameSt.mk.injEq]
    refine ⟨by simp, trivial, trivial, ?_⟩
    simp only [List.map_cons, List.flatten_cons, List.length_append,
      encodeLabel, List.length_cons]
    omega

/-- C3 as stated is FALSE: for the domain "a..b" (which contains an empty
label) the encoded question name contains a zero length octet in the
middle, so decoding stops there and returns "a", not "a..b". -/
theorem build_query_parse_name_roundtrip_cex :
    parseName 20 (buildQuery (str "a..b") 1) 12 = .ok (str "a", 15)
      ∧ str "a" ≠ str "a..b" := by
  constructor
  · decide
  · decide

/-- C3 amended: for every domain whose dot-separated labels are all
nonempty and at most 63 bytes long (in particular every standard DNS name
with N ≥ 1 labels, e.g. "example.com", "a.b.c.example.org"), encoding with
`build_query` and decoding the question-section name with `parse_name`
from offset 12 returns the original domain, for any fuel of at least the
label count plus one. -/
theorem build_query_parse_name_roundtrip (domain : List Nat)
    (qtype fuel : Nat)
    (hlabels : ∀ l ∈ splitOnDot domain, l ≠ [] ∧ l.length ≤ 63)
    (hfuel : (splitOnDot domain).length + 1 ≤ fuel) :
    ∃ off', parseName fuel (buildQuery domain qtype)
      12 = .ok (domain, off') := by
  have hb : buildQuery domain qtype
      = [0xAB, 0xCD, 0x01, 0x00, 0x00, 0x01, 0x00, 0x00, 0x00, 0x00, 0x00, 0x00]
        ++ ((splitOnDot domain).map encodeLabel).flatten
        ++ 0 :: [qtype / 256 % 256, qtype % 256, 0x00, 0x01] := by
    simp [buildQuery, List.append_assoc]
  have hloop := parseNameLoop_encoded
    [qtype / 256 % 256, qtype % 256, 0x00, 0x01]
    (splitOnDot domain) (buildQuery domain qtype)
    [0xAB, 0xCD, 0x01, 0x00, 0x00, 0x01, 0x00, 0x00, 0x00, 0x00, 0x00, 0x00]
    [] 0 fuel hb hlabels hfuel
  rw [show ([0xAB, 0xCD, 0x01, 0x00, 0x00, 0x01, 0x00, 0x00, 0x00, 0x00,
      0x00, 0x00] : List Nat).length = 12 from rfl] at hloop
  refine ⟨12 + ((splitOnDot domain).map encodeLabel).flatten.length + 1, ?_⟩
  unfold parseName
  rw [hloop]
  simp [joinDot, splitOnDot, List.intercalate_splitOn]

/-- Witness for the amended C3 at a concrete input: "example.com" encodes
and decodes back to itself. -/
theorem build_query_parse_name_roundtrip_witness :
    ∃ off', parseName 20 (buildQuery (str "example.com") 1) 12
      = .ok (str "example.com", off') :=
  build_query_parse_name_roundtrip (str "example.com") 1 20
    (by decide) (by decide)
